import Mathlib

/-!
Verification of the pixSED forward/inverse pixel-SED pipeline
(`src/filters.py`, `src/photometry.py`, `src/outputs.py`, `src/misc/misc.py`)
against its natural-language specification.

Modelling conventions.

* Machine floating-point scalars that flow through the transcendental
  photometric conversions (`countToMag`, `MagTocount`, `countToFlux`,
  `FluxToCount` in `src/photometry.py`) are modelled as real numbers; the
  claims about them are algebraic identities that hold exactly in real
  arithmetic, which is the spec's own reading ("exactly in real
  arithmetic").

* Inside the table pipeline a pixel value is either NaN (numpy's missing
  sentinel) or a finite number; finite values are modelled as rationals
  (`RVal` below).  Every comparison follows IEEE semantics as numpy
  implements them: any comparison with NaN is false, arithmetic on NaN
  yields NaN.

* 2D numpy arrays are represented by their row-major flattening
  (a `List RVal`) together with their shape where a claim needs it;
  `reshape(length)` is then the identity and `reshape(shape)` is
  row-major chunking, so nothing is lost.

* Python exceptions are modelled by `Except PyErr`.  Code that cannot
  raise returns plain values.
-/

set_option linter.unusedVariables false

namespace PixSED

/-- A numpy floating-point cell: NaN or a finite (rational) value. -/
inductive RVal where
  | nan : RVal
  | val (q : ℚ) : RVal
deriving DecidableEq

namespace RVal

/-- `np.isnan`. -/
def isNan : RVal → Bool
  | nan => true
  | val _ => false

/-- Elementwise float addition: NaN propagates. -/
def addV : RVal → RVal → RVal
  | nan, _ => nan
  | _, nan => nan
  | val a, val b => val (a + b)

/-- Elementwise float multiplication: NaN propagates. -/
def mulV : RVal → RVal → RVal
  | nan, _ => nan
  | _, nan => nan
  | val a, val b => val (a * b)

/-- Multiplication by a finite scalar. -/
def mulQ : RVal → ℚ → RVal
  | nan, _ => nan
  | val a, c => val (a * c)

/-- Division by a finite scalar.  In the source every such division is
guarded by a strict-positivity check on the divisor, so the rational
convention `q / 0 = 0` is never exercised. -/
def divQ : RVal → ℚ → RVal
  | nan, _ => nan
  | val a, c => val (a / c)

/-- `np.abs`. -/
def absV : RVal → RVal
  | nan => nan
  | val a => val |a|

/-- IEEE comparison `x < 0`: false on NaN (numpy semantics). -/
def ltZero : RVal → Bool
  | nan => false
  | val a => decide (a < 0)

/-- numpy `x != 0`.  NaN compares unequal to every number, so it is true
on NaN. -/
def neZero : RVal → Bool
  | nan => true
  | val a => decide (a ≠ 0)

/-- The finite part, if any. -/
def finPart : RVal → Option ℚ
  | nan => none
  | val a => some a

/-- Float square root modelled exactly on rational perfect squares
(`Int.sqrt`/`Nat.sqrt` on numerator and denominator); `np.sqrt` of a
negative number is NaN.  No claim below depends on the value of a square
root that is not a perfect square. -/
def sqrtV : RVal → RVal
  | nan => nan
  | val a => if a < 0 then nan else val ((Int.sqrt a.num : ℚ) / (Nat.sqrt a.den : ℚ))

end RVal

/-- Division of cells: NaN propagates.  Only reached with a non-zero
divisor in the embedded code paths. -/
def RVal.divV : RVal → RVal → RVal
  | RVal.nan, _ => RVal.nan
  | _, RVal.nan => RVal.nan
  | RVal.val a, RVal.val b => RVal.val (a / b)

/-- Python exceptions raised by the embedded code.  Messages are dropped;
the constructor records the exception class.  `shapeError` is the class
`ShapeError` of `src/misc/misc.py`; as shown below it is never actually
produced by the code. -/
inductive PyErr where
  | typeError
  | valueError
  | attributeError
  | nameError
  | indexError
  | keyError
  | shapeError
deriving DecidableEq

instance instDecEqExcept {ε α : Type} [DecidableEq ε] [DecidableEq α] :
    DecidableEq (Except ε α) := fun x y =>
  match x, y with
  | Except.error a, Except.error b =>
    decidable_of_iff (a = b) ⟨fun h => h ▸ rfl, Except.error.inj⟩
  | Except.ok a, Except.ok b =>
    decidable_of_iff (a = b) ⟨fun h => h ▸ rfl, Except.ok.inj⟩
  | Except.error _, Except.ok _ => isFalse (fun h => Except.noConfusion h)
  | Except.ok _, Except.error _ => isFalse (fun h => Except.noConfusion h)

/-- A 2D numpy array, represented by its row-major flattening. -/
abbrev Arr := List RVal

/-- `Filter._mask` / mask application `arr[mask] = np.nan`
(src/filters.py:151-170, 688-689): the input is copied and masked
positions become NaN. -/
def maskNaN (arr : Arr) (mask : List Bool) : Arr :=
  List.zipWith (fun x b => if b then RVal.nan else x) arr mask

/-- `arr[m] = y` for a boolean mask `m`. -/
def setWhere (m : List Bool) (xs : Arr) (y : RVal) : Arr :=
  List.zipWith (fun b x => if b then y else x) m xs

/-- `(data < 0) | (var < 0)` (src/filters.py:692); NaN compares false. -/
def negMask (d v : Arr) : List Bool :=
  List.zipWith (fun x y => x.ltZero || y.ltZero) d v

/-- `np.nanmin`: minimum of the non-NaN entries; NaN when every entry is
NaN (numpy then warns about an all-NaN slice but still returns NaN).
The source never calls it on an empty array without raising first; the
caller (`clean`, MIN branch) is modelled with that `ValueError`. -/
def nanmin (xs : Arr) : RVal :=
  match xs.filterMap RVal.finPart with
  | [] => RVal.nan
  | q :: qs => RVal.val (qs.foldl min q)

/-!
## `src/filters.py` — data model
-/

/-- `CleanMethod` (src/misc/enum.py). -/
inductive CleanMethod where
  | ZERO
  | MIN
deriving DecidableEq

/-- `SEDcode` (src/misc/enum.py). -/
inductive SEDcode where
  | LEPHARE
  | CIGALE
deriving DecidableEq

/-- One `Filter` (src/filters.py:31-143) after its FITS products have
been loaded.  Filter names are modelled by naturals (only their identity
matters).  The four `…Present` flags model whether `data`, `var`,
`hdr`, `ehdr` are `None` (checked by `FilterList._buildFilters`). -/
structure Filter where
  filter : ℕ
  zpt : ℚ
  data : Arr
  var : Arr
  data2 : Option Arr
  texp : Option ℚ
  shape : ℕ × ℕ
  dataPresent : Bool
  varPresent : Bool
  hdrPresent : Bool
  ehdrPresent : Bool
deriving DecidableEq

/-- A loaded FITS product: shape plus row-major cells. -/
structure Loaded where
  shape : ℕ × ℕ
  cells : Arr
deriving DecidableEq

/-- `Filter.__init__` (src/filters.py:84-143) from the point where the
FITS products have been read (`_loadFits` returns `(header, data)` or
`(None, None)`; file I/O itself is the out-of-scope collaborator).
`load`/`loadErr`/`load2` are `self.data`/`self.var`/`self.data2`;
`texpHdr` is the `TEXPTIME` lookup result, `fname2Given` whether a
`file2` was passed.

The shape checks at src/filters.py:129-133 `raise ShapeError(...)`, but
`ShapeError.__init__` (src/misc/misc.py:36) calls `super.__init__(msg)`
— `super` without parentheses — so building the exception itself raises
`TypeError` (`descriptor __init__ requires a super object`).  Hence a
shape mismatch surfaces as `typeError`, never as `shapeError`.  If a
FITS product failed to load (`None`), line 129 dereferences
`None.shape`, an `AttributeError`. -/
def filterInit (filt : ℕ) (zeropoint : ℚ) (load loadErr : Option Loaded)
    (fname2Given : Bool) (load2 : Option Loaded) (texpHdr : Option ℚ) :
    Except PyErr Filter :=
  match load, loadErr with
  | some d, some v =>
    if d.shape ≠ v.shape then Except.error PyErr.typeError
    else match load2 with
      | some d2 =>
        if d.shape ≠ d2.shape then Except.error PyErr.typeError
        else Except.ok
          { filter := filt, zpt := zeropoint, data := d.cells, var := v.cells,
            data2 := some d2.cells,
            texp := if fname2Given then texpHdr else none,
            shape := d.shape,
            dataPresent := true, varPresent := true,
            hdrPresent := true, ehdrPresent := true }
      | none => Except.ok
          { filter := filt, zpt := zeropoint, data := d.cells, var := v.cells,
            data2 := none,
            texp := if fname2Given then texpHdr else none,
            shape := d.shape,
            dataPresent := true, varPresent := true,
            hdrPresent := true, ehdrPresent := true }
  | _, _ => Except.error PyErr.attributeError

/-- `FilterList._buildFilters` (src/filters.py:307-336).  The duplicate
check compares each incoming name against `self.filters` — which
`__init__` has just set to `[]` (src/filters.py:290-291) and which is
only assigned the result *after* the loop returns — so `selfFilters`
is the list the method reads, and at the only call site it is empty.
A filter with a missing (`None`) data/variance/header product is
dropped with a diagnostic; otherwise it is appended. -/
def buildFilters (selfFilters : List Filter) (filters : List Filter) :
    List Filter :=
  filters.foldl (fun out filt =>
    if (selfFilters.map (fun g => g.filter)).contains filt.filter then out
    else if filt.dataPresent && filt.varPresent && filt.hdrPresent
        && filt.ehdrPresent then out ++ [filt]
    else out) []

/-!
## `src/filters.py` — per-band pipeline steps
-/

/-- `FilterList.clean` (src/filters.py:656-701).  Mask → NaN; positions
where data or variance is negative are set to `0` (ZERO) or to
`np.nanmin(data[~negMask])` (MIN).  With MIN and every position
negative, `data[~negMask]` is empty and `np.nanmin` raises
`ValueError` (zero-size reduction). -/
def clean (data var : Arr) (mask : List Bool) (method : CleanMethod) :
    Except PyErr (Arr × Arr) :=
  let data1 := maskNaN data mask
  let var1 := maskNaN var mask
  let neg := negMask data1 var1
  match method with
  | CleanMethod.ZERO =>
    Except.ok (setWhere neg data1 (RVal.val 0), setWhere neg var1 (RVal.val 0))
  | CleanMethod.MIN =>
    match (data1.zip neg).filterMap
        (fun p => if p.2 then none else some p.1) with
    | [] => Except.error PyErr.valueError
    | q :: qs =>
      let mini := nanmin (q :: qs)
      Except.ok (setWhere neg data1 mini, setWhere neg var1 mini)

/-- `FilterList.poissonVar` (src/filters.py:783-828):
`|data2| * texpFac / texp`, after validating `texp > 0`, `texpFac ≥ 0`. -/
def poissonVar (data2 : Arr) (texp texpFac : ℚ) : Except PyErr Arr :=
  if texp ≤ 0 then Except.error PyErr.valueError
  else if texpFac < 0 then Except.error PyErr.valueError
  else Except.ok (data2.map (fun x => x.absV.mulQ (texpFac / texp)))

/-- `FilterList.cleanAndNoise` (src/filters.py:703-743): clean, then add
the Poisson variance when both `texp` and `data2` are available. -/
def cleanAndNoise (data : Arr) (data2 : Option Arr) (var : Arr)
    (mask : List Bool) (cleanMethod : CleanMethod) (texp : Option ℚ)
    (texpFac : ℚ) : Except PyErr (Arr × Arr) :=
  match clean data var mask cleanMethod with
  | Except.error e => Except.error e
  | Except.ok (d, v) =>
    match texp, data2 with
    | some t, some d2 =>
      match poissonVar d2 t texpFac with
      | Except.error e => Except.error e
      | Except.ok pv => Except.ok (d, List.zipWith RVal.addV v pv)
    | _, _ => Except.ok (d, v)

/-- `np.nanmean` of a stack of equal-length arrays along the band axis:
per position, the mean of the non-NaN entries, NaN if all entries are
NaN. -/
def nanmeanCell (cs : List RVal) : RVal :=
  match cs.filterMap RVal.finPart with
  | [] => RVal.nan
  | q :: qs => RVal.val ((q :: qs).sum / ((qs.length + 1 : ℕ) : ℚ))

/-- Stacked `np.nanmean(·, axis=0)`. -/
def nanmeanStack (arrs : List Arr) : Arr :=
  (List.range (arrs.headD []).length).map
    (fun j => nanmeanCell (arrs.map (fun a => a.getD j RVal.nan)))

/-- `np.nan_to_num(·, nan=maskVal)`. -/
def nanToNum (arr : Arr) (v : ℚ) : Arr :=
  arr.map (fun x => if x.isNan then RVal.val v else x)

/-- `FilterList.computeMeanMap` (src/filters.py:745-780): mask every
band's raw (pre-clean) data and variance, `np.nanmean` across bands,
then replace remaining NaNs by `maskVal`.  Returns (mean data map,
mean error map); the first component is stored in `self.meanMap`. -/
def computeMeanMap (filters : List Filter) (mask : List Bool)
    (maskVal : ℚ) : Arr × Arr :=
  let data := filters.map (fun f => maskNaN f.data mask)
  let err := filters.map (fun f => maskNaN f.var mask)
  (nanToNum (nanmeanStack data) maskVal, nanToNum (nanmeanStack err) maskVal)

/-- `FilterList.scale` (src/filters.py:830-866), the pure part: where
`norm != 0`, multiply data by `factor/norm` and variance by
`factor²/norm²`; elsewhere leave unchanged.  Raises `ValueError` when
the norm and data shapes (here: lengths) differ.  The `self.scaleFac`
write happens only on the non-raising path and is modelled at the call
site. -/
def scale (data var norm : Arr) (factor : ℚ) : Except PyErr (Arr × Arr) :=
  if norm.length = data.length then
    Except.ok
      (List.zipWith (fun d n => if n.neZero then (d.mulQ factor).divV n else d)
        data norm,
       List.zipWith
        (fun v n => if n.neZero then (v.mulQ (factor * factor)).divV (n.mulV n)
          else v) var norm)
  else Except.error PyErr.valueError

/-- Per-position finiteness of a (data, variance) pair:
`~(np.isnan(d) | np.isnan(v))` (src/filters.py:645). -/
def goodMask (d v : Arr) : List Bool :=
  List.zipWith (fun x y => !(x.isNan || y.isNan)) d v

/-- Keep the entries of `xs` where the boolean mask is true
(`x[nanMask]`). -/
def compress (xs : Arr) (m : List Bool) : Arr :=
  (xs.zip m).filterMap (fun p => if p.2 then some p.1 else none)

/-- `np.where(mask)[0]`: the (increasing) positions where the mask is
true. -/
def whereTrue : List Bool → List ℕ
  | [] => []
  | b :: m =>
    if b then 0 :: (whereTrue m).map (fun j => j + 1)
    else (whereTrue m).map (fun j => j + 1)

/-- `FilterList.arraysTo1D` (src/filters.py:591-653): flatten every
band's data/variance to 1D (the identity in this representation),
accumulate `nanMask = nanMask & ~(isnan(d) | isnan(v))` over **all**
bands starting from scalar `True` (broadcast to all-true), compress
every band by that common mask and return the kept flat indices. -/
def arraysTo1D (data var : List Arr) : List Arr × List Arr × List ℕ :=
  let length := (data.headD []).length
  let nanMask := (data.zip var).foldl
    (fun acc p => List.zipWith and acc (goodMask p.1 p.2))
    (List.replicate length true)
  (data.map (fun a => compress a nanMask),
   var.map (fun a => compress a nanMask),
   whereTrue nanMask)

/-!
## `src/filters.py` — tables and `FilterList` state

Column names are drawn from a fixed alphabet: `id`/`ID`, `redshift`,
`Context`, `zs`, and per-band value/error columns named by the band. -/

inductive ColName where
  | id
  | redshift
  | context
  | zs
  | flux (b : ℕ)
  | fluxErr (b : ℕ)
deriving DecidableEq

/-- A table column: integer-typed (`ID`, `Context`) or float-typed. -/
inductive Col where
  | int (xs : List ℕ)
  | rat (xs : List RVal)
deriving DecidableEq

/-- An astropy `Table`: named columns in insertion order. -/
abbrev Table := List (ColName × Col)

def lookupCol (tbl : Table) (c : ColName) : Option Col :=
  (tbl.find? (fun p => decide (p.1 = c))).map (fun p => p.2)

def colLength : Col → ℕ
  | Col.int xs => xs.length
  | Col.rat xs => xs.length

/-- Row count of a table = length of its first column. -/
def numRows : Table → ℕ
  | [] => 0
  | c :: _ => colLength c.2

/-- `FilterList` state (src/filters.py:262-300): the derived fields
`table`, `meanMap`, `scaleFac` all start as `None`.  There is no
separate `validPixelIndex` attribute in the source — the kept flat
indices live only in the table's `id`/`ID` column. -/
structure FilterList where
  redshift : ℚ
  mask : List Bool
  table : Option Table
  meanMap : Option Arr
  scaleFac : Option ℚ
  filters : List Filter
  shape : ℕ × ℕ
  code : SEDcode
deriving DecidableEq

/-- `FilterList._CigaleTableFactory` (src/filters.py:503-551).

`conv zpt` stands for the positive real factor
`10 ** (-(zpt+48.6)/2.5) * 10^26` by which `countToFlux` followed by
`.to('mJy')` multiplies every data/error entry — irrational in general,
hence kept as a parameter; every theorem below holds for an arbitrary
`conv` or instantiates it at a value realised by some zeropoint
(`conv = 1` is the factor of zeropoint `16.4`).  After the conversion
loop the Python name `data` holds the last band's converted array, so
`ld = len(data)` is the number of kept pixels.  This factory mutates no
`FilterList` field; `genTable` stores the result in `self.table`. -/
def cigaleTableFactory (conv : ℚ → ℚ) (fl : FilterList)
    (cleanMethod : CleanMethod) (texpFac : ℚ) : Except PyErr Table :=
  match fl.filters.mapM
      (fun f => cleanAndNoise f.data f.data2 f.var fl.mask cleanMethod
        f.texp texpFac) with
  | Except.error e => Except.error e
  | Except.ok cleaned =>
    let (dataF, varF, indices) :=
      arraysTo1D (cleaned.map (fun p => p.1)) (cleaned.map (fun p => p.2))
    let dataList := (dataF.zip fl.filters).map
      (fun p => p.1.map (fun x => x.mulQ (conv p.2.zpt)))
    let stdList := (varF.zip fl.filters).map
      (fun p => (p.1.map RVal.sqrtV).map (fun x => x.mulQ (conv p.2.zpt)))
    let ld := (dataList.getLastD []).length
    let zs := List.replicate ld (RVal.val fl.redshift)
    Except.ok ((ColName.id, Col.int indices)
      :: (ColName.redshift, Col.rat zs)
      :: ((fl.filters.zip (dataList.zip stdList)).map
          (fun p => [(ColName.flux p.1.filter, Col.rat p.2.1),
                     (ColName.fluxErr p.1.filter, Col.rat p.2.2)])).flatten)

/-- `FilterList._LePhareTableFactory` (src/filters.py:438-500), as a
state transition on the `FilterList`.

Execution order for the first band: `computeMeanMap` (which stores
`self.meanMap`, src/filters.py:778), `cleanAndNoise`, `scale` (which
stores `self.scaleFac` on its non-raising path, src/filters.py:864),
then `self.arrayTo1D(...)` (src/filters.py:469) — an attribute that
does not exist on `FilterList` (only `arraysTo1D` does), so the loop
raises `AttributeError` on its first iteration and no table is ever
built.  With an empty filter list the loop is skipped and line 491
reads the unbound local `data`, a `NameError` (unreachable through
`genTable`, which requires a nonempty filter list). -/
def lePhareTableFactory (fl : FilterList) (cleanMethod : CleanMethod)
    (scaleFactor : ℚ) (texpFac : ℚ) : FilterList × Except PyErr Table :=
  let meanMap := (computeMeanMap fl.filters fl.mask 0).1
  let fl1 := { fl with meanMap := some meanMap }
  match fl.filters with
  | [] => (fl1, Except.error PyErr.nameError)
  | f0 :: _ =>
    match cleanAndNoise f0.data f0.data2 f0.var fl.mask cleanMethod
        f0.texp texpFac with
    | Except.error e => (fl1, Except.error e)
    | Except.ok (d, v) =>
      match scale d v meanMap scaleFactor with
      | Except.error e => (fl1, Except.error e)
      | Except.ok _ =>
        ({ fl1 with scaleFac := some scaleFactor },
         Except.error PyErr.attributeError)

/-- `FilterList.genTable` (src/filters.py:554-583): dispatch on the SED
code and store the produced table in `self.table`.  On an exception the
fields already written by the factory keep their new values while
`self.table` keeps its old one. -/
def genTable (conv : ℚ → ℚ) (fl : FilterList) (cleanMethod : CleanMethod)
    (scaleFactor : ℚ) (texpFac : ℚ) : FilterList × Except PyErr Table :=
  if fl.filters.length < 1 then (fl, Except.error PyErr.valueError)
  else match fl.code with
  | SEDcode.LEPHARE =>
    match lePhareTableFactory fl cleanMethod scaleFactor texpFac with
    | (fl1, Except.error e) => (fl1, Except.error e)
    | (fl1, Except.ok t) => ({ fl1 with table := some t }, Except.ok t)
  | SEDcode.CIGALE =>
    match cigaleTableFactory conv fl cleanMethod texpFac with
    | Except.error e => (fl, Except.error e)
    | Except.ok t => ({ fl with table := some t }, Except.ok t)

/-- `FilterList.setCode` (src/filters.py:873-902): set `self.code` and
regenerate the table. -/
def setCode (conv : ℚ → ℚ) (fl : FilterList) (code : SEDcode)
    (cleanMethod : CleanMethod) (scaleFactor : ℚ) (texpFac : ℚ) :
    FilterList × Except PyErr Table :=
  genTable conv { fl with code := code } cleanMethod scaleFactor texpFac

/-!
## `src/outputs.py` — image reconstruction
-/

/-- The scatter common to both `toImage` methods
(src/outputs.py:215-217, 435-437): allocate `np.full(n, nan)` and
assign `data[indices] = values` (sequential writes, last wins). -/
def scatterFill (n : ℕ) (ids : List ℕ) (vals : List RVal) : Arr :=
  (ids.zip vals).foldl (fun acc p => acc.set p.1 p.2)
    (List.replicate n RVal.nan)

/-- Values of a column as floats (`data[indices] = self.table[name]`
casts the integer columns). -/
def colVals : Col → List RVal
  | Col.int xs => xs.map (fun k => RVal.val (k : ℚ))
  | Col.rat xs => xs

/-- `CigaleOutput.toImage` (src/outputs.py:169-219): scatter the named
column at the positions of the `id` column into an all-NaN flat array
of size `shape[0]*shape[1]`; reshaping to 2D is row-major chunking of
the result.  An out-of-range index is numpy's `IndexError`; an unknown
column a `KeyError`. -/
def cigaleToImage (tbl : Table) (shape : ℕ × ℕ) (name : ColName) :
    Except PyErr Arr :=
  match lookupCol tbl ColName.id with
  | some (Col.int ids) =>
    match lookupCol tbl name with
    | some c =>
      if ids.all (fun j => j < shape.1 * shape.2) then
        Except.ok (scatterFill (shape.1 * shape.2) ids (colVals c))
      else Except.error PyErr.indexError
    | none => Except.error PyErr.keyError
  | _ => Except.error PyErr.keyError

/-- `LePhareOutput.toImage` (src/outputs.py:339-444): validate
`scaleFactor > 0` and the meanMap/shape agreement, scatter
`value / scaleFactor` at the `ID` positions, then multiply by the mean
map wherever it is non-zero. -/
def lePhareToImage (tbl : Table) (shape : ℕ × ℕ) (scaleFactor : ℚ)
    (meanMap : Arr) (name : ColName) : Except PyErr Arr :=
  if scaleFactor ≤ 0 then Except.error PyErr.valueError
  else if shape.1 * shape.2 ≠ meanMap.length then Except.error PyErr.valueError
  else match lookupCol tbl ColName.id, lookupCol tbl name with
  | some (Col.int ids), some c =>
    if ids.all (fun j => j < shape.1 * shape.2) then
      Except.ok (List.zipWith
        (fun x mv => if mv.neZero then x.mulV mv else x)
        (scatterFill (shape.1 * shape.2) ids
          ((colVals c).map (fun x => x.divQ scaleFactor)))
        meanMap)
    else Except.error PyErr.indexError
  | _, _ => Except.error PyErr.keyError

/-!
## Specification-side definitions

These definitions transcribe sentences of the spec (they are *not*
translations of the source); each claim theorem compares one of them
with the corresponding source embedding above.
-/

/-- The value a band's already-masked map presents at flat position
`j`: missing when the shared mask hides `j`, otherwise the stored
cell. -/
def maskedAt (a : Arr) (mask : List Bool) (j : ℕ) : RVal :=
  if mask.getD j false then RVal.nan else a.getD j RVal.nan

/-- Spec reading of claim C2 ("compute, from the *first* processed band
only, the boolean set of finite (flux AND variance) positions"): the
positions where the first band's flux and variance are both finite. -/
def firstBandValidIndices (data var : List Arr) : List ℕ :=
  whereTrue (goodMask (data.headD []) (var.headD []))

/-- Amended reading of C2: a position is kept iff flux and variance are
finite in **every** band; all bands are compressed by this common
index set. -/
def flattenSpecIntersect (data var : List Arr) :
    List Arr × List Arr × List ℕ :=
  let n := (data.headD []).length
  let keep : ℕ → Bool := fun j =>
    (data.zip var).all (fun p =>
      !((p.1.getD j RVal.nan).isNan) && !((p.2.getD j RVal.nan).isNan))
  let keepIdx := (List.range n).filter keep
  (data.map (fun a => keepIdx.map (fun j => a.getD j RVal.nan)),
   var.map (fun a => keepIdx.map (fun j => a.getD j RVal.nan)),
   keepIdx)

/-- The formula claim C6 states: per pixel, the average over **all**
bands of the masked flux with missing values replaced by `0`
(zero-fill, then divide by the band count). -/
def meanMapZeroFillSpec (filters : List Filter) (mask : List Bool) : Arr :=
  let zeroFilled := filters.map (fun f => nanToNum (maskNaN f.data mask) 0)
  (List.range (zeroFilled.headD []).length).map (fun j =>
    RVal.val
      ((zeroFilled.map (fun a => ((a.getD j RVal.nan).finPart).getD 0)).sum
        / (filters.length : ℚ)))

/-- Amended reading of C6: per pixel, the NaN-ignoring mean — average
over the bands whose masked flux is finite there, `0` when no band is. -/
def meanMapNanAwareSpec (filters : List Filter) (mask : List Bool) : Arr :=
  (List.range mask.length).map (fun j =>
    let vs := filters.filterMap (fun f => (maskedAt f.data mask j).finPart)
    if vs.length = 0 then RVal.val 0
    else RVal.val (vs.sum / (vs.length : ℚ)))

/-- The replacement value claim C7 states for MIN: the minimum
non-negative, non-missing value present anywhere in the band's
already-masked flux **or variance** maps. -/
def specMinNonNegFluxOrVar (data var : Arr) (mask : List Bool) : Option ℚ :=
  ((maskNaN data mask ++ maskNaN var mask).filterMap
    (fun c => match c.finPart with
      | some q => if 0 ≤ q then some q else none
      | none => none)).min?

/-- Amended reading of C7, as a function: mask, then at every position
where the masked flux or masked variance is negative replace **both**
entries — by `0` (ZERO), or (MIN) by the minimum non-NaN value of the
masked flux over the positions where neither map is negative, failing
when no such position exists. -/
def cleanSpec (data var : Arr) (mask : List Bool) (method : CleanMethod) :
    Except PyErr (Arr × Arr) :=
  let n := data.length
  let keep : ℕ → Bool := fun j =>
    !(maskedAt data mask j).ltZero && !(maskedAt var mask j).ltZero
  match method with
  | CleanMethod.ZERO =>
    Except.ok
      ((List.range n).map
        (fun j => if keep j then maskedAt data mask j else RVal.val 0),
       (List.range n).map
        (fun j => if keep j then maskedAt var mask j else RVal.val 0))
  | CleanMethod.MIN =>
    if ((List.range n).filter keep).length = 0 then
      Except.error PyErr.valueError
    else
      let m0 := (((List.range n).filter keep).filterMap
        (fun j => (maskedAt data mask j).finPart)).min?.elim RVal.nan RVal.val
      Except.ok
        ((List.range n).map
          (fun j => if keep j then maskedAt data mask j else m0),
         (List.range n).map
          (fun j => if keep j then maskedAt var mask j else m0))

/-!
## Concrete scenarios

`conv1` instantiates the Cigale flux-conversion factor at `1`, the
value realised by zeropoint `16.4` (then `10^(-(16.4+48.6)/2.5) · 10^26
= 1`). -/

def conv1 : ℚ → ℚ := fun _ => 1

/-- A 1×2 band with one negative flux pixel (zeropoint 16.4). -/
def bandK : Filter :=
  ⟨0, 82/5, [RVal.val 1, RVal.val (-1)], [RVal.val 1, RVal.val 1],
   none, none, (1, 2), true, true, true, true⟩

/-- Fresh `FilterList` holding `bandK`, Cigale code, no mask. -/
def flK0 : FilterList :=
  ⟨0, [false, false], none, none, none, [bandK], (1, 2), SEDcode.CIGALE⟩

/-- State after a first Cigale `genTable` run (method ZERO). -/
def flK1 : FilterList := (genTable conv1 flK0 CleanMethod.ZERO 100 0).1

/-- State after a subsequent LePhare `genTable` attempt. -/
def flK2 : FilterList :=
  (genTable conv1 { flK1 with code := SEDcode.LEPHARE }
    CleanMethod.ZERO 100 0).1

/-- State after a Cigale re-run (method MIN, so the table changes). -/
def flK3 : FilterList :=
  (genTable conv1 { flK2 with code := SEDcode.CIGALE }
    CleanMethod.MIN 100 0).1

/-- Scenario A / B flux band: 4×4, all-positive values `1..16`,
zeropoint 25, unit variance, no Poisson products. -/
def fluxA : Arr :=
  [RVal.val 1, RVal.val 2, RVal.val 3, RVal.val 4,
   RVal.val 5, RVal.val 6, RVal.val 7, RVal.val 8,
   RVal.val 9, RVal.val 10, RVal.val 11, RVal.val 12,
   RVal.val 13, RVal.val 14, RVal.val 15, RVal.val 16]

def varA : Arr := List.replicate 16 (RVal.val 1)

def bandA : Filter := ⟨0, 25, fluxA, varA, none, none, (4, 4), true, true, true, true⟩

/-- Scenario A: no mask, LePhare engine. -/
def flScnA : FilterList :=
  ⟨0, List.replicate 16 false, none, none, none, [bandA], (4, 4),
   SEDcode.LEPHARE⟩

/-- Scenario B mask: 4 of the 16 pixels (flat positions 1, 5, 10, 15)
are bad. -/
def maskB : List Bool :=
  [false, true, false, false, false, true, false, false,
   false, false, true, false, false, false, false, true]

/-- Scenario B: same band, Cigale engine, `maskB`. -/
def flScnB : FilterList :=
  ⟨0, maskB, none, none, none, [bandA], (4, 4), SEDcode.CIGALE⟩

/-- Two 1×2 bands; the second has a NaN flux at position 1. -/
def dataC2 : List Arr := [[RVal.val 1, RVal.val 1], [RVal.val 1, RVal.nan]]

def varC2 : List Arr :=
  [[RVal.val 1, RVal.val 1], [RVal.val 1, RVal.val 1]]

/-- Two 1×1 bands: flux NaN in the first band only, mask all-good. -/
def f1C6 : Filter := ⟨0, 0, [RVal.nan], [RVal.val 1], none, none, (1, 1), true, true, true, true⟩

def f2C6 : Filter := ⟨1, 0, [RVal.val 2], [RVal.val 1], none, none, (1, 1), true, true, true, true⟩

/-- Two distinct filters carrying the same name `0`. -/
def filtDupA : Filter := ⟨0, 0, [RVal.val 1], [RVal.val 1], none, none, (1, 1), true, true, true, true⟩

def filtDupB : Filter := ⟨0, 0, [RVal.val 2], [RVal.val 1], none, none, (1, 1), true, true, true, true⟩

/-!
## `src/photometry.py` — the four scalar conversions, over ℝ

`countToMag` / `MagTocount` and `countToFlux` / `FluxToCount` are pure
scalar functions; `10**x` is real exponentiation and `np.log10` is the
base-10 logarithm.
-/

/-- `countToMag(data, err, zeropoint)` (src/photometry.py:40-43):
`mag = -2.5*log10(data) + zeropoint`, `emag = 1.08*err/data`. -/
noncomputable def countToMag (data err zeropoint : ℝ) : ℝ × ℝ :=
  (-2.5 * Real.logb 10 data + zeropoint, 1.08 * err / data)

/-- `countToFlux(data, err, zeropoint)` (src/photometry.py:62-65): both
components are multiplied by `10 ** (-(zeropoint+48.6)/2.5)`.  The
`erg/(s*Hz*cm^2)` unit tag carried by the astropy Quantity does not
change the numeric value. -/
noncomputable def countToFlux (data err zeropoint : ℝ) : ℝ × ℝ :=
  (data * (10 : ℝ) ^ (-(zeropoint + 48.6) / 2.5),
   err * (10 : ℝ) ^ (-(zeropoint + 48.6) / 2.5))

/-- `FluxToCount(flux, eflux, zeropoint)` (src/photometry.py:84-92).
Transcribed faithfully from the source, including line 90:
`err = flux * fac` — the error channel is computed from `flux`,
not from `eflux`. -/
noncomputable def FluxToCount (flux eflux zeropoint : ℝ) : ℝ × ℝ :=
  let fac := (10 : ℝ) ^ ((zeropoint + 48.6) / 2.5)
  (flux * fac, flux * fac)

/-- `MagTocount(mag, emag, zeropoint)` (src/photometry.py:111-114):
`data = 10**((zeropoint-mag)/2.5)`, `err = data*emag/1.08`. -/
noncomputable def MagTocount (mag emag zeropoint : ℝ) : ℝ × ℝ :=
  let data := (10 : ℝ) ^ ((zeropoint - mag) / 2.5)
  (data, data * emag / 1.08)

/-- `10 ^ (-e) * 10 ^ e = 1` over ℝ. -/
theorem rpow_neg_mul_rpow_self (e : ℝ) :
    (10 : ℝ) ^ (-e) * (10 : ℝ) ^ e = 1 := by
  rw [← Real.rpow_add (by norm_num : (0 : ℝ) < 10)]
  simp

/-- C4: `FluxToCount ∘ countToFlux` returns `(value, value)` — the error
channel is overwritten with the value channel (src/photometry.py:90), so
`(value, sigma)` is NOT recovered whenever `sigma ≠ value`; at
`value = 1, sigma = 2, zeropoint = -48.6` the roundtrip yields `(1, 1)`
instead of `(1, 2)`. -/
theorem fluxToCount_countToFlux_roundtrip_bug :
    (∀ value sigma zeropoint : ℝ,
      FluxToCount (countToFlux value sigma zeropoint).1
        (countToFlux value sigma zeropoint).2 zeropoint = (value, value)) ∧
    FluxToCount (countToFlux 1 2 (-48.6)).1 (countToFlux 1 2 (-48.6)).2
        (-48.6) ≠ ((1 : ℝ), (2 : ℝ)) := by
  have key : ∀ value sigma zeropoint : ℝ,
      FluxToCount (countToFlux value sigma zeropoint).1
        (countToFlux value sigma zeropoint).2 zeropoint = (value, value) := by
    intro v s z
    unfold FluxToCount countToFlux
    simp only
    have h : v * (10 : ℝ) ^ (-(z + 48.6) / 2.5) * (10 : ℝ) ^ ((z + 48.6) / 2.5)
        = v := by
      rw [mul_assoc]
      have : (-(z + 48.6) / 2.5 : ℝ) = -((z + 48.6) / 2.5) := by ring
      rw [this, rpow_neg_mul_rpow_self, mul_one]
    rw [h]
  refine ⟨key, ?_⟩
  rw [key 1 2 (-48.6)]
  intro h
  have := congrArg Prod.snd h
  norm_num at this

/-- C10: for `value > 0` and `sigma ≥ 0`, `MagTocount` applied to the
result of `countToMag` with the same zeropoint recovers `(value, sigma)`
exactly in real arithmetic. -/
theorem magTocount_countToMag_roundtrip (value sigma zeropoint : ℝ)
    (hv : 0 < value) (hs : 0 ≤ sigma) :
    MagTocount (countToMag value sigma zeropoint).1
      (countToMag value sigma zeropoint).2 zeropoint = (value, sigma) := by
  unfold MagTocount countToMag
  simp only
  have hexp : (zeropoint - (-2.5 * Real.logb 10 value + zeropoint)) / 2.5
      = Real.logb 10 value := by ring
  rw [hexp, Real.rpow_logb (by norm_num) (by norm_num) hv]
  have hv0 : value ≠ 0 := ne_of_gt hv
  have herr : value * (1.08 * sigma / value) / 1.08 = sigma := by
    field_simp
  rw [herr]

/-- Witness for C10 at `value = 1`, `sigma = 2`, `zeropoint = 5`. -/
theorem magTocount_countToMag_roundtrip_witness :
    MagTocount (countToMag 1 2 5).1 (countToMag 1 2 5).2 5 = (1, 2) :=
  magTocount_countToMag_roundtrip 1 2 5 (by norm_num) (by norm_num)

/-!
## Helper lemmas about the list combinators used by the embedding
-/

theorem getD_of_lt {A : Type} (l : List A) (j : ℕ) (d : A) (h : j < l.length) :
    l.getD j d = l[j] := by
  rw [List.getD_eq_getElem?_getD, List.getElem?_eq_getElem h]
  rfl

theorem getD_zipWith {A B C : Type} (f : A → B → C) (as : List A) (bs : List B)
    (j : ℕ) (da : A) (db : B) (dc : C) (ha : j < as.length) (hb : j < bs.length) :
    (List.zipWith f as bs).getD j dc = f (as.getD j da) (bs.getD j db) := by
  rw [List.getD_eq_getElem?_getD, List.getElem?_zipWith,
    List.getElem?_eq_getElem ha, List.getElem?_eq_getElem hb,
    getD_of_lt _ _ _ ha, getD_of_lt _ _ _ hb]
  rfl

theorem getD_map_of_lt {A B : Type} (f : A → B) (l : List A) (j : ℕ) (da : A)
    (db : B) (h : j < l.length) :
    (l.map f).getD j db = f (l.getD j da) := by
  rw [List.getD_eq_getElem?_getD, List.getElem?_map, List.getElem?_eq_getElem h,
    getD_of_lt _ _ _ h]
  rfl

theorem getD_replicate_of_lt {A : Type} (n j : ℕ) (a d : A) (h : j < n) :
    (List.replicate n a).getD j d = a := by
  rw [List.getD_eq_getElem?_getD, List.getElem?_replicate, if_pos h]
  rfl

/-- A list is the `map` of its `getD` over `range` of its length. -/
theorem eq_range_map {A : Type} (n : ℕ) (xs : List A) (d : A) (f : ℕ → A)
    (hlen : xs.length = n) (hget : ∀ j, j < n → xs.getD j d = f j) :
    xs = (List.range n).map f := by
  apply List.ext_getElem?
  intro j
  by_cases hj : j < n
  · rw [List.getElem?_eq_getElem (hlen ▸ hj : j < xs.length), List.getElem?_map,
      List.getElem?_range hj]
    have h1 := hget j hj
    rw [getD_of_lt _ _ _ (hlen ▸ hj : j < xs.length)] at h1
    simp [h1]
  · rw [List.getElem?_eq_none (by omega : xs.length ≤ j), List.getElem?_eq_none]
    simp only [List.length_map, List.length_range]
    omega

/-- Selecting list elements through a boolean mask equals indexing by the
positions where the (transformed) mask is true. -/
theorem zip_filterMap_pos {A : Type} (d : A) (g : Bool → Bool) :
    ∀ (xs : List A) (m : List Bool), xs.length = m.length →
    (xs.zip m).filterMap (fun p => if g p.2 then some p.1 else none)
      = ((List.range xs.length).filter (fun j => g (m.getD j false))).map
          (fun j => xs.getD j d) := by
  intro xs
  induction xs with
  | nil => intro m _; simp
  | cons x xs ih =>
    intro m hm
    match m with
    | [] => simp at hm
    | b :: m =>
      have hm2 : xs.length = m.length := by simpa using hm
      rw [List.zip_cons_cons, List.filterMap_cons, List.length_cons,
        List.range_succ_eq_map, List.filter_cons]
      have hshift : (List.filter (fun j => g ((b :: m).getD j false))
            (List.map Nat.succ (List.range xs.length))).map
            (fun j => (x :: xs).getD j d)
          = (List.filter (fun j => g (m.getD j false))
              (List.range xs.length)).map (fun j => xs.getD j d) := by
        rw [List.filter_map, List.map_map]
        congr 1
      cases hgb : g b with
      | true =>
        simp only [List.getD_cons_zero, hgb, if_pos, List.map_cons]
        rw [ih m hm2, hshift]
      | false =>
        simp only [List.getD_cons_zero, hgb, Bool.false_eq_true, if_false]
        rw [ih m hm2, hshift]

/-- `whereTrue` lists exactly the positions where the mask is true. -/
theorem whereTrue_eq_filter_range :
    ∀ m : List Bool,
    whereTrue m = (List.range m.length).filter (fun j => m.getD j false)
  | [] => by simp [whereTrue]
  | b :: m => by
    have ih := whereTrue_eq_filter_range m
    have hfun : (fun (j : ℕ) => j + 1) = Nat.succ := rfl
    have hshift : List.filter (fun j => (b :: m).getD j false)
          (List.map Nat.succ (List.range m.length))
        = List.map Nat.succ
            (List.filter (fun j => m.getD j false) (List.range m.length)) := by
      rw [List.filter_map]
      rfl
    cases b with
    | true =>
      show 0 :: List.map (fun j => j + 1) (whereTrue m) = _
      rw [ih, hfun, List.length_cons, List.range_succ_eq_map, List.filter_cons,
        if_pos (show (true :: m).getD 0 false = true from rfl), hshift]
    | false =>
      show List.map (fun j => j + 1) (whereTrue m) = _
      rw [ih, hfun, List.length_cons, List.range_succ_eq_map, List.filter_cons,
        if_neg (show ¬(false :: m).getD 0 false = true from by simp), hshift]

/-- Length of the accumulated NaN mask of `arraysTo1D`. -/
theorem nanMask_foldl_length (n : ℕ) :
    ∀ (ps : List (Arr × Arr)) (acc : List Bool), acc.length = n →
    (∀ p ∈ ps, p.1.length = n ∧ p.2.length = n) →
    (ps.foldl (fun a p => List.zipWith and a (goodMask p.1 p.2)) acc).length
      = n := by
  intro ps
  induction ps with
  | nil => intro acc hacc _; exact hacc
  | cons p ps ih =>
    intro acc hacc hps
    rw [List.foldl_cons]
    apply ih
    · have h1 := (hps p (List.mem_cons_self p ps)).1
      have h2 := (hps p (List.mem_cons_self p ps)).2
      simp [goodMask, List.length_zipWith, hacc, h1, h2]
    · intro q hq
      exact hps q (List.mem_cons_of_mem p hq)

/-- Per-position value of the accumulated NaN mask of `arraysTo1D`: the
start value conjoined with finiteness of every band at that position. -/
theorem nanMask_foldl_getD (n j : ℕ) (hj : j < n) :
    ∀ (ps : List (Arr × Arr)) (acc : List Bool), acc.length = n →
    (∀ p ∈ ps, p.1.length = n ∧ p.2.length = n) →
    (ps.foldl (fun a p => List.zipWith and a (goodMask p.1 p.2)) acc).getD j false
      = (acc.getD j false
          && ps.all (fun p => !((p.1.getD j RVal.nan).isNan)
              && !((p.2.getD j RVal.nan).isNan))) := by
  intro ps
  induction ps with
  | nil =>
    intro acc hacc _
    simp
  | cons p ps ih =>
    intro acc hacc hps
    have h1 := (hps p (List.mem_cons_self p ps)).1
    have h2 := (hps p (List.mem_cons_self p ps)).2
    have hglen : (goodMask p.1 p.2).length = n := by
      simp [goodMask, List.length_zipWith, h1, h2]
    have hstep : (List.zipWith and acc (goodMask p.1 p.2)).length = n := by
      simp [List.length_zipWith, hacc, hglen]
    rw [List.foldl_cons, ih _ hstep (fun q hq => hps q (List.mem_cons_of_mem p hq))]
    rw [getD_zipWith and acc (goodMask p.1 p.2) j false false false
      (hacc ▸ hj) (hglen ▸ hj)]
    rw [show goodMask p.1 p.2 = List.zipWith
      (fun x y => !(x.isNan || y.isNan)) p.1 p.2 from rfl]
    rw [getD_zipWith _ p.1 p.2 j RVal.nan RVal.nan false (h1 ▸ hj) (h2 ▸ hj)]
    rw [List.all_cons]
    cases acc.getD j false <;>
      cases (p.1.getD j RVal.nan).isNan <;>
        cases (p.2.getD j RVal.nan).isNan <;> simp

/-- `compress` = indexing by the mask's true positions. -/
theorem compress_eq_filter_range (xs : Arr) (m : List Bool)
    (h : xs.length = m.length) :
    compress xs m
      = ((List.range xs.length).filter (fun j => m.getD j false)).map
          (fun j => xs.getD j RVal.nan) := by
  have h2 := zip_filterMap_pos RVal.nan (fun b => b) xs m h
  simpa [compress] using h2

/-- `arraysTo1D` keeps exactly the positions where **every** band's flux
and variance are finite (the cross-band intersection), and compresses
every band by that common index set. -/
theorem arraysTo1D_eq_intersection (data var : List Arr) (n : ℕ)
    (hne : data ≠ [])
    (hd : ∀ a ∈ data, a.length = n) (hv : ∀ a ∈ var, a.length = n)
    (hlen : data.length = var.length) :
    arraysTo1D data var = flattenSpecIntersect data var := by
  have hL : (data.headD []).length = n := by
    cases data with
    | nil => exact absurd rfl hne
    | cons d0 rest => exact hd d0 (List.mem_cons_self d0 rest)
  have hzip : ∀ p ∈ data.zip var, p.1.length = n ∧ p.2.length = n := by
    intro p hp
    exact ⟨hd p.1 (List.of_mem_zip hp).1, hv p.2 (List.of_mem_zip hp).2⟩
  have hrep : (List.replicate (data.headD []).length true).length = n := by
    rw [List.length_replicate, hL]
  have hmlen : ((data.zip var).foldl
      (fun a p => List.zipWith and a (goodMask p.1 p.2))
      (List.replicate (data.headD []).length true)).length = n :=
    nanMask_foldl_length n _ _ hrep hzip
  have hmget : ∀ j, j < n →
      ((data.zip var).foldl
        (fun acc p => List.zipWith and acc (goodMask p.1 p.2))
        (List.replicate n true)).getD j false
      = (data.zip var).all (fun p => !((p.1.getD j RVal.nan).isNan)
          && !((p.2.getD j RVal.nan).isNan)) := by
    intro j hj
    rw [nanMask_foldl_getD n j hj _ _ (List.length_replicate n true) hzip,
      getD_replicate_of_lt _ _ _ _ hj, Bool.true_and]
  simp only [arraysTo1D, flattenSpecIntersect, Prod.mk.injEq]
  refine ⟨?_, ?_, ?_⟩
  · apply List.map_congr_left
    intro a ha
    rw [compress_eq_filter_range a _ (by rw [hd a ha, hmlen]), hd a ha, hL]
    congr 1
    apply List.filter_congr
    intro j hj
    exact hmget j (List.mem_range.mp hj)
  · apply List.map_congr_left
    intro a ha
    rw [compress_eq_filter_range a _ (by rw [hv a ha, hmlen]), hv a ha, hL]
    congr 1
    apply List.filter_congr
    intro j hj
    exact hmget j (List.mem_range.mp hj)
  · rw [whereTrue_eq_filter_range, hmlen, hL]
    apply List.filter_congr
    intro j hj
    exact hmget j (List.mem_range.mp hj)

/-- `(maskNaN a m).getD j` is the masked value at `j`. -/
theorem maskNaN_getD (a : Arr) (m : List Bool) (j : ℕ)
    (ha : j < a.length) (hm : j < m.length) :
    (maskNaN a m).getD j RVal.nan = maskedAt a m j := by
  show (List.zipWith (fun x b => if b then RVal.nan else x) a m).getD j RVal.nan
    = maskedAt a m j
  rw [getD_zipWith _ a m j RVal.nan false RVal.nan ha hm]
  rfl

/-- `computeMeanMap` is the NaN-ignoring cross-band mean of the masked
pre-clean flux, with pixels that are missing in every band set to 0. -/
theorem computeMeanMap_eq_nanAware (filters : List Filter) (mask : List Bool)
    (hne : filters ≠ [])
    (hlen : ∀ f ∈ filters, f.data.length = mask.length) :
    (computeMeanMap filters mask 0).1 = meanMapNanAwareSpec filters mask := by
  have hhead : ((filters.map (fun f => maskNaN f.data mask)).headD []).length
      = mask.length := by
    cases filters with
    | nil => exact absurd rfl hne
    | cons f0 rest =>
      show (maskNaN f0.data mask).length = mask.length
      simp [maskNaN, List.length_zipWith,
        hlen f0 (List.mem_cons_self f0 rest)]
  simp only [computeMeanMap, nanmeanStack, nanToNum, meanMapNanAwareSpec]
  rw [hhead, List.map_map]
  apply List.map_congr_left
  intro j hj
  have hjlt : j < mask.length := List.mem_range.mp hj
  have hX : (filters.map (fun f => maskNaN f.data mask)).map
        (fun a => a.getD j RVal.nan)
      = filters.map (fun f => maskedAt f.data mask j) := by
    rw [List.map_map]
    apply List.map_congr_left
    intro f hf
    exact maskNaN_getD f.data mask j (by rw [hlen f hf]; exact hjlt) hjlt
  show (if (nanmeanCell ((filters.map (fun f => maskNaN f.data mask)).map
        (fun a => a.getD j RVal.nan))).isNan then RVal.val 0
      else nanmeanCell ((filters.map (fun f => maskNaN f.data mask)).map
        (fun a => a.getD j RVal.nan))) = _
  rw [hX]
  simp only [nanmeanCell, List.filterMap_map, Function.comp_def]
  cases hvs : List.filterMap (fun f => (maskedAt f.data mask j).finPart) filters with
  | nil => simp [RVal.isNan]
  | cons q qs =>
    simp [RVal.isNan, List.length_cons]

/-- `np.nanmin` agrees with `min?` of the finite entries. -/
theorem nanmin_eq_min? (xs : Arr) :
    nanmin xs = (xs.filterMap RVal.finPart).min?.elim RVal.nan RVal.val := by
  cases h : xs.filterMap RVal.finPart with
  | nil => simp [nanmin, h]
  | cons q qs => simp only [nanmin, h, List.min?_cons', Option.elim]

/-- `clean` coincides with its specification `cleanSpec`: ZERO always
succeeds; MIN fails exactly when every position has a negative masked
flux or variance, and otherwise replaces both entries at those
positions by the minimum non-NaN masked flux over the non-negative
positions. -/
theorem clean_eq_cleanSpec (data var : Arr) (mask : List Bool)
    (hm : mask.length = data.length) (hv : var.length = data.length)
    (method : CleanMethod) :
    clean data var mask method = cleanSpec data var mask method := by
  have hd1len : (maskNaN data mask).length = data.length := by
    simp [maskNaN, List.length_zipWith, hm]
  have hv1len : (maskNaN var mask).length = data.length := by
    simp [maskNaN, List.length_zipWith, hv, hm]
  have hneglen : (negMask (maskNaN data mask) (maskNaN var mask)).length
      = data.length := by
    simp [negMask, List.length_zipWith, hd1len, hv1len]
  have hd1get : ∀ j, j < data.length →
      (maskNaN data mask).getD j RVal.nan = maskedAt data mask j := by
    intro j hj
    exact maskNaN_getD data mask j hj (by rw [hm]; exact hj)
  have hv1get : ∀ j, j < data.length →
      (maskNaN var mask).getD j RVal.nan = maskedAt var mask j := by
    intro j hj
    exact maskNaN_getD var mask j (by rw [hv]; exact hj) (by rw [hm]; exact hj)
  have hnegget : ∀ j, j < data.length →
      (negMask (maskNaN data mask) (maskNaN var mask)).getD j false
        = ((maskedAt data mask j).ltZero || (maskedAt var mask j).ltZero) := by
    intro j hj
    show (List.zipWith (fun x y => x.ltZero || y.ltZero) (maskNaN data mask)
      (maskNaN var mask)).getD j false = _
    rw [getD_zipWith _ _ _ j RVal.nan RVal.nan false
      (by rw [hd1len]; exact hj) (by rw [hv1len]; exact hj),
      hd1get j hj, hv1get j hj]
  have hsetD : ∀ y : RVal,
      setWhere (negMask (maskNaN data mask) (maskNaN var mask))
        (maskNaN data mask) y
      = (List.range data.length).map (fun j =>
          if !(maskedAt data mask j).ltZero
              && !(maskedAt var mask j).ltZero then maskedAt data mask j
          else y) := by
    intro y
    apply eq_range_map data.length _ RVal.nan
    · simp [setWhere, List.length_zipWith, hneglen, hd1len]
    · intro j hj
      show (List.zipWith (fun b x => if b then y else x)
        (negMask (maskNaN data mask) (maskNaN var mask))
        (maskNaN data mask)).getD j RVal.nan = _
      rw [getD_zipWith _ _ _ j false RVal.nan RVal.nan
        (by rw [hneglen]; exact hj) (by rw [hd1len]; exact hj),
        hnegget j hj, hd1get j hj]
      cases hda : (maskedAt data mask j).ltZero <;>
        cases hvb : (maskedAt var mask j).ltZero <;> simp
  have hsetV : ∀ y : RVal,
      setWhere (negMask (maskNaN data mask) (maskNaN var mask))
        (maskNaN var mask) y
      = (List.range data.length).map (fun j =>
          if !(maskedAt data mask j).ltZero
              && !(maskedAt var mask j).ltZero then maskedAt var mask j
          else y) := by
    intro y
    apply eq_range_map data.length _ RVal.nan
    · simp [setWhere, List.length_zipWith, hneglen, hv1len]
    · intro j hj
      show (List.zipWith (fun b x => if b then y else x)
        (negMask (maskNaN data mask) (maskNaN var mask))
        (maskNaN var mask)).getD j RVal.nan = _
      rw [getD_zipWith _ _ _ j false RVal.nan RVal.nan
        (by rw [hneglen]; exact hj) (by rw [hv1len]; exact hj),
        hnegget j hj, hv1get j hj]
      cases hda : (maskedAt data mask j).ltZero <;>
        cases hvb : (maskedAt var mask j).ltZero <;> simp
  have hcand : ((maskNaN data mask).zip
        (negMask (maskNaN data mask) (maskNaN var mask))).filterMap
        (fun p => if p.2 then none else some p.1)
      = ((List.range data.length).filter (fun j =>
          !(maskedAt data mask j).ltZero
            && !(maskedAt var mask j).ltZero)).map
          (fun j => maskedAt data mask j) := by
    have hfun : (fun (p : RVal × Bool) => if p.2 then none else some p.1)
        = (fun (p : RVal × Bool) => if !p.2 then some p.1 else none) := by
      funext p
      cases hb : p.2 <;> simp [hb]
    rw [hfun, zip_filterMap_pos RVal.nan Bool.not _ _
      (by rw [hd1len, hneglen]), hd1len]
    have hfilter : (List.range data.length).filter (fun j =>
        !(negMask (maskNaN data mask) (maskNaN var mask)).getD j false)
        = (List.range data.length).filter (fun j =>
          !(maskedAt data mask j).ltZero
            && !(maskedAt var mask j).ltZero) := by
      apply List.filter_congr
      intro j hj
      rw [hnegget j (List.mem_range.mp hj), Bool.not_or]
    rw [hfilter]
    apply List.map_congr_left
    intro j hj
    exact hd1get j (List.mem_range.mp
      (List.mem_of_mem_filter hj))
  cases method with
  | ZERO =>
    show Except.ok (setWhere _ _ (RVal.val 0), setWhere _ _ (RVal.val 0)) = _
    rw [hsetD (RVal.val 0), hsetV (RVal.val 0)]
    rfl
  | MIN =>
    show (match ((maskNaN data mask).zip
        (negMask (maskNaN data mask) (maskNaN var mask))).filterMap
        (fun p => if p.2 then none else some p.1) with
      | [] => Except.error PyErr.valueError
      | q :: qs =>
        Except.ok
          (setWhere (negMask (maskNaN data mask) (maskNaN var mask))
            (maskNaN data mask) (nanmin (q :: qs)),
           setWhere (negMask (maskNaN data mask) (maskNaN var mask))
            (maskNaN var mask) (nanmin (q :: qs)))) = _
    rw [hcand]
    cases hK : (List.range data.length).filter (fun j =>
        !(maskedAt data mask j).ltZero
          && !(maskedAt var mask j).ltZero) with
    | nil =>
      show Except.error PyErr.valueError = _
      simp [cleanSpec, hK]
    | cons k ks =>
      have hmini : nanmin (List.map (fun j => maskedAt data mask j) (k :: ks))
          = (((k :: ks).filterMap
              (fun j => (maskedAt data mask j).finPart)).min?).elim
              RVal.nan RVal.val := by
        rw [nanmin_eq_min?, List.filterMap_map]
        rfl
      simp only [List.map_cons]
      rw [hsetD _, hsetV _, ← List.map_cons, hmini]
      simp [cleanSpec, hK]
/-- The sequential scatter preserves the array length. -/
theorem scatter_length : ∀ (ps : List (ℕ × RVal)) (base : Arr),
    (ps.foldl (fun acc p => acc.set p.1 p.2) base).length = base.length := by
  intro ps
  induction ps with
  | nil => intro base; rfl
  | cons p ps ih =>
    intro base
    rw [List.foldl_cons, ih, List.length_set]

/-- Positions not named by any write keep their original value. -/
theorem scatter_untouched : ∀ (ps : List (ℕ × RVal)) (base : Arr) (j : ℕ),
    (∀ p ∈ ps, p.1 ≠ j) →
    (ps.foldl (fun acc p => acc.set p.1 p.2) base).getD j RVal.nan
      = base.getD j RVal.nan := by
  intro ps
  induction ps with
  | nil => intro base j _; rfl
  | cons p ps ih =>
    intro base j hp
    rw [List.foldl_cons, ih _ j (fun q hq => hp q (List.mem_cons_of_mem p hq)),
      List.getD_eq_getElem?_getD, List.getD_eq_getElem?_getD,
      List.getElem?_set_ne (hp p (List.mem_cons_self p ps))]

/-- With pairwise-distinct in-range indices, the scatter writes row `i`
exactly at flat position `ids.getD i`. -/
theorem scatter_core : ∀ (ids : List ℕ) (vals : List RVal) (base : Arr),
    ids.Nodup → (∀ j ∈ ids, j < base.length) → ids.length = vals.length →
    ∀ i, i < ids.length →
    ((ids.zip vals).foldl (fun acc p => acc.set p.1 p.2) base).getD
        (ids.getD i 0) RVal.nan = vals.getD i RVal.nan := by
  intro ids
  induction ids with
  | nil => intro vals base _ _ _ i hi; simp at hi
  | cons j0 ids ih =>
    intro vals base hnodup hb hlen i hi
    match vals with
    | [] => simp at hlen
    | x0 :: vals =>
      rw [List.zip_cons_cons, List.foldl_cons]
      match i with
      | 0 =>
        rw [List.getD_cons_zero, List.getD_cons_zero]
        have hnotin : ∀ p ∈ ids.zip vals, p.1 ≠ j0 := by
          intro p hp heq
          exact (List.nodup_cons.mp hnodup).1 (heq ▸ (List.of_mem_zip hp).1)
        rw [scatter_untouched _ _ _ hnotin, List.getD_eq_getElem?_getD,
          List.getElem?_set_self (hb j0 (List.mem_cons_self j0 ids))]
        rfl
      | Nat.succ i =>
        rw [List.getD_cons_succ, List.getD_cons_succ]
        exact ih vals (base.set j0 x0) (List.nodup_cons.mp hnodup).2
          (fun j hj => by
            rw [List.length_set]
            exact hb j (List.mem_cons_of_mem j0 hj))
          (by simpa using hlen) i (by simpa using hi)

/-!
## Claim theorems
-/

/-- C1 (amended): the four derived fields are **not** replaced as one
atomic group.  A Cigale `genTable` run never touches `meanMap` or
`scaleFac`; a LePhare `genTable` run stores a fresh `meanMap` (and,
when it passes the `scale` step, a fresh `scaleFac`) and then raises
before rebuilding the table, leaving `table` unchanged.  Hence a Cigale
re-run after a LePhare run keeps the LePhare-era `meanMap`/`scaleFac`
next to the new table. -/
theorem genTable_fields_not_atomic (conv : ℚ → ℚ) (fl : FilterList)
    (cm : CleanMethod) (sf tf : ℚ) (h : fl.filters ≠ []) :
    (genTable conv { fl with code := SEDcode.CIGALE } cm sf tf).1.meanMap
        = fl.meanMap ∧
    (genTable conv { fl with code := SEDcode.CIGALE } cm sf tf).1.scaleFac
        = fl.scaleFac ∧
    (genTable conv { fl with code := SEDcode.LEPHARE } cm sf tf).1.table
        = fl.table ∧
    (genTable conv { fl with code := SEDcode.LEPHARE } cm sf tf).1.meanMap
        = some (computeMeanMap fl.filters fl.mask 0).1 ∧
    ∃ e, (genTable conv { fl with code := SEDcode.LEPHARE } cm sf tf).2
        = Except.error e := by
  obtain ⟨f0, rest, hfl⟩ : ∃ f0 rest, fl.filters = f0 :: rest := by
    cases hfl : fl.filters with
    | nil => exact absurd hfl h
    | cons a l => exact ⟨a, l, rfl⟩
  have hnlt : ¬(fl.filters.length < 1) := by
    rw [hfl]
    simp
  have hC : (genTable conv { fl with code := SEDcode.CIGALE } cm sf tf).1.meanMap
        = fl.meanMap ∧
      (genTable conv { fl with code := SEDcode.CIGALE } cm sf tf).1.scaleFac
        = fl.scaleFac := by
    simp only [genTable]
    rw [if_neg hnlt]
    cases hres : cigaleTableFactory conv { fl with code := SEDcode.CIGALE } cm tf with
    | error e => simp [hres]
    | ok t => simp [hres]
  have hLP : (genTable conv { fl with code := SEDcode.LEPHARE } cm sf tf).1.table
        = fl.table ∧
      (genTable conv { fl with code := SEDcode.LEPHARE } cm sf tf).1.meanMap
        = some (computeMeanMap fl.filters fl.mask 0).1 ∧
      ∃ e, (genTable conv { fl with code := SEDcode.LEPHARE } cm sf tf).2
        = Except.error e := by
    simp only [genTable]
    rw [if_neg hnlt]
    simp only [lePhareTableFactory, hfl]
    cases hcn : cleanAndNoise f0.data f0.data2 f0.var fl.mask cm f0.texp tf with
    | error e => exact ⟨rfl, rfl, e, rfl⟩
    | ok dv =>
      obtain ⟨d, v⟩ := dv
      dsimp only
      cases hs : scale d v (computeMeanMap (f0 :: rest) fl.mask 0).1 sf with
      | error e => exact ⟨rfl, rfl, e, rfl⟩
      | ok dv2 => exact ⟨rfl, rfl, PyErr.attributeError, rfl⟩
  exact ⟨hC.1, hC.2, hLP.1, hLP.2.1, hLP.2.2⟩

/-- Witness for C1's amended theorem at the concrete one-band list
`flK0`. -/
theorem genTable_fields_not_atomic_witness :
    (genTable conv1 { flK0 with code := SEDcode.CIGALE }
        CleanMethod.ZERO 100 0).1.meanMap = flK0.meanMap ∧
    (genTable conv1 { flK0 with code := SEDcode.CIGALE }
        CleanMethod.ZERO 100 0).1.scaleFac = flK0.scaleFac ∧
    (genTable conv1 { flK0 with code := SEDcode.LEPHARE }
        CleanMethod.ZERO 100 0).1.table = flK0.table ∧
    (genTable conv1 { flK0 with code := SEDcode.LEPHARE }
        CleanMethod.ZERO 100 0).1.meanMap
      = some (computeMeanMap flK0.filters flK0.mask 0).1 ∧
    ∃ e, (genTable conv1 { flK0 with code := SEDcode.LEPHARE }
        CleanMethod.ZERO 100 0).2 = Except.error e :=
  genTable_fields_not_atomic conv1 flK0 CleanMethod.ZERO 100 0 (by decide)

/-- C1 (counterexample): run Cigale (`flK1`), then attempt LePhare
(`flK2`), then re-run Cigale with MIN (`flK3`).  The LePhare attempt
rewrites `meanMap` and `scaleFac` while the table stays the old Cigale
one, and the final Cigale re-run replaces the table while keeping the
LePhare-era `meanMap` and `scaleFac` — the four derived fields are
never replaced as one atomic group. -/
theorem genTable_atomicity_counterexample :
    flK1.table ≠ none ∧ flK1.meanMap = none ∧ flK1.scaleFac = none ∧
    flK2.table = flK1.table ∧ flK2.meanMap ≠ none ∧
    flK2.scaleFac = some 100 ∧
    flK3.table ≠ flK2.table ∧ flK3.meanMap = flK2.meanMap ∧
    flK3.scaleFac = flK2.scaleFac := by
  refine ⟨Option.some_ne_none _, rfl, rfl, rfl, Option.some_ne_none _, rfl,
    ?_, rfl, rfl⟩
  intro h
  have h2 : (RVal.val (1 * conv1 bandK.zpt) : RVal)
      = RVal.val (0 * conv1 bandK.zpt) :=
    congrArg (fun (ot : Option Table) =>
      (colVals ((ot.getD []).getD 2 (ColName.id, Col.int [])).2).getD 1
        RVal.nan) h
  have h3 : (1 : ℚ) * conv1 bandK.zpt = 0 * conv1 bandK.zpt := RVal.val.inj h2
  norm_num [conv1] at h3

/-- C2 (counterexample): with two 1×2 bands where only the second band
has a NaN (at position 1), `arraysTo1D` keeps index 0 only — not the
first band's full finite set `[0, 1]` — and the NaN never enters the
flattened output. -/
theorem arraysTo1D_not_first_band_counterexample :
    (arraysTo1D dataC2 varC2).2.2 = [0] ∧
    firstBandValidIndices dataC2 varC2 = [0, 1] ∧
    ([0] : List ℕ) ≠ [0, 1] ∧
    (arraysTo1D dataC2 varC2).1 = [[RVal.val 1], [RVal.val 1]] := by
  decide

/-- C2 (amended): the flatten step keeps exactly the positions whose
flux **and** variance are finite in **every** band (the cross-band
intersection), and compresses each band by that common index set. -/
theorem arraysTo1D_is_cross_band_intersection (data var : List Arr) (n : ℕ)
    (hne : data ≠ [])
    (hd : ∀ a ∈ data, a.length = n) (hv : ∀ a ∈ var, a.length = n)
    (hlen : data.length = var.length) :
    arraysTo1D data var = flattenSpecIntersect data var :=
  arraysTo1D_eq_intersection data var n hne hd hv hlen

/-- Witness for C2's amended theorem at the two-band input `dataC2`. -/
theorem arraysTo1D_is_cross_band_intersection_witness :
    arraysTo1D dataC2 varC2 = flattenSpecIntersect dataC2 varC2 :=
  arraysTo1D_is_cross_band_intersection dataC2 varC2 2 (by decide)
    (by decide) (by decide) (by decide)

/-- C3: on Scenario A (one 4×4 all-positive band, zeropoint 25, no
mask, ZERO cleaning, scale factor 100) the LePhare table generation
does **not** succeed: `_LePhareTableFactory` calls the nonexistent
attribute `arrayTo1D` (only `arraysTo1D` exists), so `genTable` raises
`AttributeError` and no table is stored, for every value of the flux
conversion factor. -/
theorem lePhare_scenarioA_attributeError :
    ∀ conv : ℚ → ℚ,
    (genTable conv flScnA CleanMethod.ZERO 100 0).2
        = Except.error PyErr.attributeError ∧
    (genTable conv flScnA CleanMethod.ZERO 100 0).1.table = none :=
  fun conv => ⟨rfl, rfl⟩

/-- C5: (1) the scatter used by both `toImage` methods writes row `i`
exactly at flat position `ids.getD i` and leaves every position outside
`ids` at NaN; (2) `LePhareOutput.toImage` writes row `i`'s value
(divided by the scale factor and multiplied by the non-zero mean-map
entry) exactly at flat position `ids.getD i`; (3) Scenario B: the
4×4 one-band Cigale table under `maskB` (4 bad pixels) has exactly 12
rows, its columns are `id`, `redshift` and the band value/error pair,
and `CigaleOutput.toImage` of **every** column yields a map that is NaN
exactly at the 4 masked positions. -/
theorem toImage_index_fidelity :
    (∀ (n : ℕ) (ids : List ℕ) (vals : List RVal),
      ids.Nodup → (∀ j ∈ ids, j < n) → ids.length = vals.length →
      (∀ i, i < ids.length →
        (scatterFill n ids vals).getD (ids.getD i 0) RVal.nan
          = vals.getD i RVal.nan) ∧
      (∀ p, p < n → p ∉ ids →
        (scatterFill n ids vals).getD p RVal.nan = RVal.nan)) ∧
    (∀ (tbl : Table) (shape : ℕ × ℕ) (s : ℚ) (mm : Arr) (name : ColName)
      (ids : List ℕ) (c : Col),
      0 < s → shape.1 * shape.2 = mm.length →
      lookupCol tbl ColName.id = some (Col.int ids) →
      lookupCol tbl name = some c →
      (∀ j ∈ ids, j < shape.1 * shape.2) →
      ids.length = (colVals c).length → ids.Nodup →
      ∃ img, lePhareToImage tbl shape s mm name = Except.ok img ∧
        ∀ i, i < ids.length →
          img.getD (ids.getD i 0) RVal.nan
            = (if (mm.getD (ids.getD i 0) RVal.nan).neZero
                then (((colVals c).getD i RVal.nan).divQ s).mulV
                  (mm.getD (ids.getD i 0) RVal.nan)
                else ((colVals c).getD i RVal.nan).divQ s)) ∧
    (∀ conv : ℚ → ℚ, ∃ tbl,
      (genTable conv flScnB CleanMethod.ZERO 100 0).2 = Except.ok tbl ∧
      numRows tbl = 12 ∧
      tbl.map Prod.fst
        = [ColName.id, ColName.redshift, ColName.flux 0, ColName.fluxErr 0] ∧
      (∃ img, cigaleToImage tbl (4, 4) ColName.id = Except.ok img ∧
        img.map RVal.isNan = maskB) ∧
      (∃ img, cigaleToImage tbl (4, 4) ColName.redshift = Except.ok img ∧
        img.map RVal.isNan = maskB) ∧
      (∃ img, cigaleToImage tbl (4, 4) (ColName.flux 0) = Except.ok img ∧
        img.map RVal.isNan = maskB) ∧
      (∃ img, cigaleToImage tbl (4, 4) (ColName.fluxErr 0) = Except.ok img ∧
        img.map RVal.isNan = maskB)) := by
  refine ⟨?_, ?_, ?_⟩
  · intro n ids vals hnodup hb hlen
    constructor
    · intro i hi
      have hcore := scatter_core ids vals (List.replicate n RVal.nan) hnodup
        (fun j hj => by
          rw [List.length_replicate]
          exact hb j hj) hlen i hi
      simpa [scatterFill] using hcore
    · intro p hp hpnot
      have huntouched := scatter_untouched (ids.zip vals)
        (List.replicate n RVal.nan) p
        (fun q hq heq => hpnot (heq ▸ (List.of_mem_zip hq).1))
      have hrepl := getD_replicate_of_lt n p RVal.nan RVal.nan hp
      simp only [scatterFill]
      rw [huntouched, hrepl]
  · intro tbl shape s mm name ids c hs hshape hid hname hb hlen hnodup
    have hn : ¬(s ≤ 0) := not_le.mpr hs
    have hall : ids.all (fun j => decide (j < shape.1 * shape.2)) = true := by
      rw [List.all_eq_true]
      intro j hj
      exact decide_eq_true (hb j hj)
    refine ⟨List.zipWith (fun x mv => if mv.neZero then x.mulV mv else x)
        (scatterFill (shape.1 * shape.2) ids
          ((colVals c).map (fun x => x.divQ s))) mm, ?_, ?_⟩
    · simp only [lePhareToImage]
      rw [if_neg hn, if_neg (by rw [hshape]; simp), hid, hname]
      simp [hall]
    · intro i hi
      have hgetidx : ids.getD i 0 = ids[i] := getD_of_lt ids i 0 hi
      have hidx : ids.getD i 0 < shape.1 * shape.2 := by
        rw [hgetidx]
        exact hb ids[i] (List.getElem_mem hi)
      have hscatlen : (scatterFill (shape.1 * shape.2) ids
          ((colVals c).map (fun x => x.divQ s))).length = shape.1 * shape.2 := by
        simp only [scatterFill]
        rw [scatter_length, List.length_replicate]
      rw [getD_zipWith _ _ mm (ids.getD i 0) RVal.nan RVal.nan RVal.nan
        (by rw [hscatlen]; exact hidx) (by rw [← hshape]; exact hidx)]
      have hcore := scatter_core ids ((colVals c).map (fun x => x.divQ s))
        (List.replicate (shape.1 * shape.2) RVal.nan) hnodup
        (fun j hj => by
          rw [List.length_replicate]
          exact hb j hj)
        (by rw [List.length_map]; exact hlen) i hi
      simp only [scatterFill]
      rw [hcore, getD_map_of_lt _ (colVals c) i RVal.nan RVal.nan
        (by rw [← hlen]; exact hi)]
  · intro conv
    exact ⟨_, rfl, rfl, rfl, ⟨_, rfl, rfl⟩, ⟨_, rfl, rfl⟩, ⟨_, rfl, rfl⟩,
      ⟨_, rfl, rfl⟩⟩

/-- Witness for C5 at concrete inputs: a 3-cell scatter of rows
`[(2, 5), (0, 7)]`, a LePhare reconstruction from a 2-row table, and
Scenario B at the conversion factor of zeropoint 16.4. -/
theorem toImage_index_fidelity_witness :
    ((∀ i, i < ([2, 0] : List ℕ).length →
        (scatterFill 3 [2, 0] [RVal.val 5, RVal.val 7]).getD
          (([2, 0] : List ℕ).getD i 0) RVal.nan
          = ([RVal.val 5, RVal.val 7] : List RVal).getD i RVal.nan) ∧
      (∀ p, p < 3 → p ∉ ([2, 0] : List ℕ) →
        (scatterFill 3 [2, 0] [RVal.val 5, RVal.val 7]).getD p RVal.nan
          = RVal.nan)) ∧
    (∃ img, lePhareToImage
        [(ColName.id, Col.int [2, 0]),
         (ColName.flux 0, Col.rat [RVal.val 5, RVal.val 7])] (1, 3) 2
        [RVal.val 1, RVal.val 0, RVal.val 3] (ColName.flux 0)
        = Except.ok img ∧
      ∀ i, i < ([2, 0] : List ℕ).length →
        img.getD (([2, 0] : List ℕ).getD i 0) RVal.nan
          = (if (([RVal.val 1, RVal.val 0, RVal.val 3] : Arr).getD
                (([2, 0] : List ℕ).getD i 0) RVal.nan).neZero
              then (((colVals (Col.rat [RVal.val 5, RVal.val 7])).getD i
                  RVal.nan).divQ 2).mulV
                (([RVal.val 1, RVal.val 0, RVal.val 3] : Arr).getD
                  (([2, 0] : List ℕ).getD i 0) RVal.nan)
              else ((colVals (Col.rat [RVal.val 5, RVal.val 7])).getD i
                  RVal.nan).divQ 2)) ∧
    (∃ tbl, (genTable conv1 flScnB CleanMethod.ZERO 100 0).2 = Except.ok tbl ∧
      numRows tbl = 12 ∧
      tbl.map Prod.fst
        = [ColName.id, ColName.redshift, ColName.flux 0, ColName.fluxErr 0] ∧
      (∃ img, cigaleToImage tbl (4, 4) ColName.id = Except.ok img ∧
        img.map RVal.isNan = maskB) ∧
      (∃ img, cigaleToImage tbl (4, 4) ColName.redshift = Except.ok img ∧
        img.map RVal.isNan = maskB) ∧
      (∃ img, cigaleToImage tbl (4, 4) (ColName.flux 0) = Except.ok img ∧
        img.map RVal.isNan = maskB) ∧
      (∃ img, cigaleToImage tbl (4, 4) (ColName.fluxErr 0) = Except.ok img ∧
        img.map RVal.isNan = maskB)) :=
  ⟨toImage_index_fidelity.1 3 [2, 0] [RVal.val 5, RVal.val 7]
      (by decide) (by decide) (by decide),
   toImage_index_fidelity.2.1
      [(ColName.id, Col.int [2, 0]),
       (ColName.flux 0, Col.rat [RVal.val 5, RVal.val 7])] (1, 3) 2
      [RVal.val 1, RVal.val 0, RVal.val 3] (ColName.flux 0) [2, 0]
      (Col.rat [RVal.val 5, RVal.val 7]) (by decide) (by decide) rfl rfl
      (by decide) (by decide) (by decide),
   toImage_index_fidelity.2.2 conv1⟩

/-- C6 (counterexample): two 1×1 bands, flux `NaN` in band 1 only and
`2` in band 2, no mask.  `computeMeanMap` (NaN-ignoring `np.nanmean`)
gives `2`, whereas the claim's zero-fill-then-average formula gives
`(0 + 2) / 2 = 1`. -/
theorem computeMeanMap_zero_fill_counterexample :
    (computeMeanMap [f1C6, f2C6] [false] 0).1 = [RVal.val 2] ∧
    meanMapZeroFillSpec [f1C6, f2C6] [false] = [RVal.val 1] ∧
    (RVal.val 2 : RVal) ≠ RVal.val 1 := by
  refine ⟨?_, ?_, by decide⟩
  · norm_num [computeMeanMap, nanmeanStack, nanmeanCell, nanToNum, maskNaN,
      f1C6, f2C6, RVal.finPart, RVal.isNan, List.range_succ,
      List.filterMap_cons, List.filterMap_nil, List.sum_cons, List.sum_nil]
  · norm_num [meanMapZeroFillSpec, nanToNum, maskNaN, f1C6, f2C6,
      RVal.finPart, RVal.isNan, List.range_succ]

/-- C6 (amended): the mean map is the **NaN-ignoring** cross-band mean
of the masked pre-clean flux (average over the bands whose masked value
is finite at the pixel), with pixels missing in every band set to 0;
computed from the raw band data and the shared mask only, hence
independent of per-band cleaning. -/
theorem computeMeanMap_is_nanAware_mean (filters : List Filter)
    (mask : List Bool) (hne : filters ≠ [])
    (hlen : ∀ f ∈ filters, f.data.length = mask.length) :
    (computeMeanMap filters mask 0).1 = meanMapNanAwareSpec filters mask :=
  computeMeanMap_eq_nanAware filters mask hne hlen

/-- Witness for C6's amended theorem at the two 1×1 bands. -/
theorem computeMeanMap_is_nanAware_mean_witness :
    (computeMeanMap [f1C6, f2C6] [false] 0).1
      = meanMapNanAwareSpec [f1C6, f2C6] [false] :=
  computeMeanMap_is_nanAware_mean [f1C6, f2C6] [false] (by decide) (by decide)

/-- C7 (counterexample): on `data = [5, -1]`, `var = [2, 3]`, no mask,
MIN replaces both entries at position 1 by `5` — the minimum of the
**data** map over non-negative positions — although the claim's
minimum over masked flux *or variance* is `2`; and on the all-negative
band `data = [-1]` MIN raises `ValueError` instead of terminating. -/
theorem clean_min_counterexample :
    clean [RVal.val 5, RVal.val (-1)] [RVal.val 2, RVal.val 3] [false, false]
        CleanMethod.MIN
      = Except.ok ([RVal.val 5, RVal.val 5], [RVal.val 2, RVal.val 5]) ∧
    specMinNonNegFluxOrVar [RVal.val 5, RVal.val (-1)]
        [RVal.val 2, RVal.val 3] [false, false] = some 2 ∧
    (RVal.val 5 : RVal) ≠ RVal.val 2 ∧
    clean [RVal.val (-1)] [RVal.val 1] [false] CleanMethod.MIN
      = Except.error PyErr.valueError := by
  decide

/-- C7 (amended): `clean` equals `cleanSpec`: ZERO always succeeds and
zeroes both maps at every position where the masked flux or variance is
negative; MIN succeeds iff some position has neither negative, replaces
both entries at the negative positions by the minimum non-NaN **masked
flux** value over the non-negative positions, and raises `ValueError`
otherwise. -/
theorem clean_matches_cleanSpec (data var : Arr) (mask : List Bool)
    (hm : mask.length = data.length) (hv : var.length = data.length)
    (method : CleanMethod) :
    clean data var mask method = cleanSpec data var mask method :=
  clean_eq_cleanSpec data var mask hm hv method

/-- Witness for C7's amended theorem at a concrete band. -/
theorem clean_matches_cleanSpec_witness :
    clean [RVal.val 3, RVal.val (-2)] [RVal.val 1, RVal.val 1] [false, false]
        CleanMethod.MIN
      = cleanSpec [RVal.val 3, RVal.val (-2)] [RVal.val 1, RVal.val 1]
          [false, false] CleanMethod.MIN :=
  clean_matches_cleanSpec [RVal.val 3, RVal.val (-2)]
    [RVal.val 1, RVal.val 1] [false, false] (by decide) (by decide)
    CleanMethod.MIN

/-- C8: two filters sharing the name `0` are **both** kept by
`_buildFilters` — the duplicate check consults `self.filters`, which is
empty throughout construction — so the built list carries duplicate
names and no occurrence is dropped. -/
theorem buildFilters_keeps_duplicate_names :
    buildFilters [] [filtDupA, filtDupB] = [filtDupA, filtDupB] ∧
    filtDupA.filter = filtDupB.filter ∧
    ¬ ((buildFilters [] [filtDupA, filtDupB]).map
        (fun f => f.filter)).Nodup := by
  decide

/-- C9: constructing a `Filter` whose flux and variance maps (or whose
Poisson-reference map) have different shapes always fails — but with
`TypeError` (raised while building the `ShapeError` itself, whose
`__init__` calls `super.__init__` without parentheses), never with
`ShapeError`. -/
theorem filter_shape_mismatch_raises_typeError :
    filterInit 0 0 (some ⟨(2, 2), List.replicate 4 (RVal.val 1)⟩)
        (some ⟨(2, 3), List.replicate 6 (RVal.val 1)⟩) false none none
      = Except.error PyErr.typeError ∧
    filterInit 0 0 (some ⟨(2, 2), List.replicate 4 (RVal.val 1)⟩)
        (some ⟨(2, 2), List.replicate 4 (RVal.val 1)⟩) true
        (some ⟨(3, 2), List.replicate 6 (RVal.val 1)⟩) none
      = Except.error PyErr.typeError ∧
    PyErr.typeError ≠ PyErr.shapeError := by
  decide

end PixSED
